import Mathlib

/-!
Verification of the ResearchBuddy paper-search service against its
specification.  The Python modules under `app/` are shallowly embedded:
`pydantic` models become structures, pure methods become functions, the
stateful Google-Scholar rate limiter becomes explicit state passing, and
`try/except` blocks become total functions returning the caught-path value.
-/

set_option maxHeartbeats 1000000

namespace ResearchBuddy

/-- `PaperSource` enum from `app/models/paper.py`. -/
inductive PaperSource where
  | arxiv
  | google_scholar
  | pubmed
  | ieee
deriving DecidableEq, Repr

/-- `SortBy` enum from `app/models/paper.py`. -/
inductive SortBy where
  | relevance
  | recent
  | cited
deriving DecidableEq, Repr

/-- The `Paper` pydantic model from `app/models/paper.py`.  `published` is an
ISO-format date string; `doi` and `citation_count` are optional. -/
structure Paper where
  id : String
  title : String
  abstract : String := ""
  authors : List String := []
  published : String
  pdf_url : Option String := none
  source : PaperSource
  doi : Option String := none
  citation_count : Option Int := none
  venue : Option String := none
  keywords : List String := []
deriving DecidableEq, Repr

/-- Python regex `\w` word characters, for the ASCII titles considered here:
alphanumeric or underscore. -/
def isWordChar (c : Char) : Bool := c.isAlphanum || c == '_'

/-- Splitting a character list on whitespace runs, accumulating the current
word reversed; empty pieces are discarded, as Python `str.split()` does. -/
def splitWsAux : List Char → List Char → List (List Char)
  | [], acc => if acc.isEmpty then [] else [acc.reverse]
  | c :: cs, acc =>
    if c.isWhitespace then
      if acc.isEmpty then splitWsAux cs [] else acc.reverse :: splitWsAux cs []
    else splitWsAux cs (c :: acc)

/-- Python `str.split()` with no separator: split on whitespace runs and
discard empty pieces. -/
def pySplit (s : String) : List String :=
  (splitWsAux s.data []).map String.mk

/-- Python `str.lower()`, character by character (the titles here are
ASCII). -/
def pyLower (s : String) : String := String.mk (s.data.map Char.toLower)

/-- Python `' '.join(words)`. -/
def joinSpace : List String → String
  | [] => ""
  | w :: ws => ws.foldl (fun acc x => acc ++ " " ++ x) w

/-- `PaperSearchAggregator._normalize_title`: lowercase, drop characters that
are neither word characters nor whitespace (`re.sub` with the pattern
excluding word and space classes), then collapse whitespace. -/
def normalize_title (title : String) : String :=
  if title = "" then ""
  else
    let lowered := pyLower title
    let stripped := String.mk (lowered.data.filter (fun c => isWordChar c || c.isWhitespace))
    joinSpace (pySplit stripped)

/-- The word set of a normalized title (Python `set(title.split())`). -/
def wordSet (t : String) : Finset String := (pySplit t).toFinset

/-- `PaperSearchAggregator._calculate_title_similarity`: Jaccard similarity of
the word sets, `0.0` when either title or either word set is empty.  Python
computes `len(intersection) / len(union)` as a float and compares it with the
literal `0.85`; for the word-set sizes arising from titles the float
comparison agrees with the exact rational comparison, so the similarity is
modelled as the exact rational quotient (`Rat.divInt`, definitionally equal
to `/` on `ℚ` by `Rat.divInt_eq_div`). -/
def calculate_title_similarity (t1 t2 : String) : ℚ :=
  if t1 = "" ∨ t2 = "" then 0
  else
    let w1 := wordSet t1
    let w2 := wordSet t2
    if w1 = ∅ ∨ w2 = ∅ then 0
    else Rat.divInt ((w1 ∩ w2).card : Int) ((w1 ∪ w2).card : Int)

/-- The float literal `0.85` of `_is_similar_title`, as an exact rational. -/
def similarityThreshold : ℚ := Rat.divInt 85 100

/-- `PaperSearchAggregator._is_similar_title`: is the given normalized title
more than `0.85`-similar to some previously seen title?  The Python
`Set[str]` of seen titles is modelled by a list used only for membership and
iteration. -/
def is_similar_title (t : String) (seen_titles : List String) : Bool :=
  if t = "" then false
  else seen_titles.any (fun s => decide (calculate_title_similarity t s > similarityThreshold))

/-- Python truthiness of the optional `doi` field (`if paper.doi and ...`):
present and non-empty. -/
def doiTruthy (d : Option String) : Bool :=
  match d with
  | none => false
  | some s => s ≠ ""

/-- Loop of `PaperSearchAggregator._deduplicate_papers` over the remaining
papers, carrying the `seen_dois` and `seen_titles` sets (modelled by lists
used only for membership). -/
def dedupGo : List Paper → List String → List String → List Paper
  | [], _, _ => []
  | p :: rest, seen_dois, seen_titles =>
    if doiTruthy p.doi && decide (p.doi.getD "" ∈ seen_dois) then
      dedupGo rest seen_dois seen_titles
    else if is_similar_title (normalize_title p.title) seen_titles then
      dedupGo rest seen_dois seen_titles
    else
      p :: dedupGo rest
        (if doiTruthy p.doi then p.doi.getD "" :: seen_dois else seen_dois)
        (normalize_title p.title :: seen_titles)

/-- `PaperSearchAggregator._deduplicate_papers`. -/
def deduplicate_papers (papers : List Paper) : List Paper :=
  dedupGo papers [] []

/-- Modelled from the spec: the claimed sameness relation — both DOIs
non-null and equal, or normalized-title Jaccard similarity strictly above
`0.85`. -/
def samePaperSpec (p q : Paper) : Prop :=
  (p.doi.isSome = true ∧ p.doi = q.doi) ∨
    calculate_title_similarity (normalize_title p.title) (normalize_title q.title) > similarityThreshold

/-- The amended sameness relation: both DOIs non-null and non-empty (Python
truthiness) and equal, or normalized-title similarity strictly above
`0.85`. -/
def samePaperAmended (p q : Paper) : Prop :=
  (doiTruthy p.doi = true ∧ p.doi = q.doi) ∨
    calculate_title_similarity (normalize_title p.title) (normalize_title q.title) > similarityThreshold

instance : DecidableRel samePaperSpec := fun p q => by
  unfold samePaperSpec; infer_instance

instance : DecidableRel samePaperAmended := fun p q => by
  unfold samePaperAmended; infer_instance

/-- Modelled from the spec: greedy first-wins filtering — each paper is kept
exactly when it is not the same (under `same`) as any earlier kept paper. -/
def greedyFilterGo (same : Paper → Paper → Prop) [DecidableRel same] :
    List Paper → List Paper → List Paper
  | _, [] => []
  | kept, p :: rest =>
    if kept.any (fun q => decide (same q p)) then greedyFilterGo same kept rest
    else p :: greedyFilterGo same (kept ++ [p]) rest

/-- Modelled from the spec: deduplication as the greedy first-wins filter
under a sameness relation. -/
def greedyFilter (same : Paper → Paper → Prop) [DecidableRel same]
    (papers : List Paper) : List Paper :=
  greedyFilterGo same [] papers

/-- A paper whose DOI is present but empty (Python-falsy). -/
def paperEmptyDoiA : Paper :=
  { id := "a", title := "Alpha One", published := "2020-01-01T00:00:00Z",
    source := .arxiv, doi := some "" }

/-- A second paper with the same empty DOI and an unrelated title. -/
def paperEmptyDoiB : Paper :=
  { id := "b", title := "Beta Two", published := "2021-01-01T00:00:00Z",
    source := .pubmed, doi := some "" }

/-- A paper with a non-empty DOI. -/
def paperSharedDoiA : Paper :=
  { id := "c", title := "Deep Learning for Protein Folding Prediction",
    published := "2021-01-01T00:00:00Z", source := .arxiv, doi := some "10.1000/xyz" }

/-- A second paper with the same non-empty DOI and a different, dissimilar
title. -/
def paperSharedDoiB : Paper :=
  { id := "d", title := "Totally Different Topic Here",
    published := "2022-01-01T00:00:00Z", source := .pubmed, doi := some "10.1000/xyz" }

/-- The sort key of the CITED branch of `_sort_papers`: the tuple
`(citation_count if it is not None else -1, published)`, compared as Python
compares tuples, i.e. lexicographically. -/
def citation_key (p : Paper) : ℤ ×ₗ String :=
  toLex (p.citation_count.getD (-1), p.published)

/-- The ordering realised by Python `sorted(..., key=citation_key,
reverse=True)`: `p` precedes `q` when its key is at least `q`'s key. -/
def citedGE (p q : Paper) : Prop := citation_key q ≤ citation_key p

instance : DecidableRel citedGE := fun p q =>
  inferInstanceAs (Decidable (citation_key q ≤ citation_key p))

instance : IsTotal Paper citedGE :=
  ⟨fun p q => le_total (citation_key q) (citation_key p)⟩

instance : IsTrans Paper citedGE :=
  ⟨fun _ _ _ h1 h2 => le_trans h2 h1⟩

/-- The ordering realised by Python `sorted(..., key=published, reverse=True)`
in the RECENT branch. -/
def recentGE (p q : Paper) : Prop := q.published ≤ p.published

instance : DecidableRel recentGE := fun p q =>
  inferInstanceAs (Decidable (q.published ≤ p.published))

/-- One step of the `defaultdict` grouping of
`_sort_by_relevance_with_diversity`: append the paper to its source's group,
creating the group at the end on first appearance (Python dicts preserve
insertion order). -/
def groupStep (groups : List (PaperSource × List Paper)) (p : Paper) :
    List (PaperSource × List Paper) :=
  if groups.any (fun g => g.1 == p.source) then
    groups.map (fun g => if g.1 == p.source then (g.1, g.2 ++ [p]) else g)
  else groups ++ [(p.source, [p])]

/-- The `defaultdict` grouping of `_sort_by_relevance_with_diversity`: an
association list keyed by source in first-appearance order, each group
keeping list order. -/
def group_by_source (papers : List Paper) : List (PaperSource × List Paper) :=
  papers.foldl groupStep []

/-- `PaperSearchAggregator._sort_by_relevance_with_diversity`: for each index
`i` below the largest group size (`max(...)` over the groups, `0` when there
are none), emit the `i`-th paper of every group that still has one, in group
order.  The Python locals `source_groups` and `max_length` are inlined. -/
def sort_by_relevance_with_diversity (papers : List Paper) : List Paper :=
  ((List.range (((group_by_source papers).map (fun g => g.2.length)).foldl max 0)).map
      (fun i => (group_by_source papers).filterMap (fun g => g.2[i]?))).flatten

/-- `PaperSearchAggregator._sort_papers`.  Python `sorted` with `reverse=True`
is a stable descending sort, which `List.insertionSort` with a
greater-or-equal relation realises exactly (equal keys keep their original
relative order in both). -/
def sort_papers (papers : List Paper) (sort_by : SortBy) : List Paper :=
  if papers = [] then papers
  else
    match sort_by with
    | .recent => papers.insertionSort recentGE
    | .cited => papers.insertionSort citedGE
    | .relevance => sort_by_relevance_with_diversity papers

/-- Modelled from the spec: round-robin interleaving of two lists, preserving
each list's internal order. -/
def roundRobin2 : List Paper → List Paper → List Paper
  | [], lb => lb
  | a :: as, [] => a :: as
  | a :: as, b :: bs => a :: b :: roundRobin2 as bs

/-- First arXiv paper of the interleaving example. -/
def rrA1 : Paper :=
  { id := "a1", title := "Paper A One", published := "2020-01-01", source := .arxiv }

/-- Second arXiv paper of the interleaving example. -/
def rrA2 : Paper :=
  { id := "a2", title := "Paper A Two", published := "2020-02-01", source := .arxiv }

/-- Third arXiv paper of the interleaving example. -/
def rrA3 : Paper :=
  { id := "a3", title := "Paper A Three", published := "2020-03-01", source := .arxiv }

/-- First PubMed paper of the interleaving example. -/
def rrB1 : Paper :=
  { id := "b1", title := "Paper B One", published := "2021-01-01", source := .pubmed }

/-- Second PubMed paper of the interleaving example. -/
def rrB2 : Paper :=
  { id := "b2", title := "Paper B Two", published := "2021-02-01", source := .pubmed }

/-- The sources configured in `PaperSearchAggregator.__init__`: arXiv,
Google Scholar and PubMed (`IEEE removed - not implementing for now`). -/
def knownSource : PaperSource → Bool
  | .arxiv => true
  | .google_scholar => true
  | .pubmed => true
  | .ieee => false

/-- The outcome of one adapter's `search` coroutine: the list it returns, or
the exception it raises. -/
def SearchOutcome : Type := Except Unit (List Paper)

/-- `PaperSearchAggregator._safe_search`: run the searcher and catch any
exception, turning it into an empty result list. -/
def safe_search (outcome : SearchOutcome) : List Paper :=
  match outcome with
  | .ok papers => papers
  | .error _ => []

/-- `results_per_source = max(1, max_results // len(sources))`, with Python
floor division. -/
def results_per_source (max_results : Int) (num_sources : Nat) : Int :=
  max 1 (Int.fdiv max_results num_sources)

/-- Python list slicing `l[:m]` for an arbitrary integer bound `m`: a
non-negative bound keeps at most `m` leading elements, a negative bound drops
`-m` elements from the end. -/
def pySlice (m : Int) (l : List Paper) : List Paper :=
  if 0 ≤ m then l.take m.toNat else l.take (l.length + m).toNat

/-- `PaperSearchAggregator.search_all_sources`.  Each adapter is abstracted
by `outcome` (source and requested per-source count to result-or-exception);
the query, date range and user id are fixed over one call and absorbed into
`outcome`.  `asyncio.gather` preserves task order, and `_safe_search`
(doubled by `return_exceptions=True` plus the `isinstance` check) confines a
task's exception to that task.  An empty `sources` list raises
`ZeroDivisionError` in `max(1, max_results // len(sources))`, which the
enclosing `except` turns into `[]`; a list without any configured source
returns `[]` at the `if not tasks` guard. -/
def search_all_sources (outcome : PaperSource → Int → SearchOutcome)
    (sources : List PaperSource) (max_results : Int) (sort_by : SortBy) :
    List Paper :=
  if sources.length = 0 then []
  else if sources.filter (fun s => knownSource s) = [] then []
  else
    pySlice max_results (sort_papers (deduplicate_papers
      (((sources.filter (fun s => knownSource s)).map
        (fun s => safe_search (outcome s (results_per_source max_results sources.length)))).flatten))
      sort_by)

/-- A two-source scenario in which the arXiv adapter raises and the PubMed
adapter returns one paper. -/
def partialFailureOutcome : PaperSource → Int → SearchOutcome := fun s _ =>
  match s with
  | .arxiv => Except.error ()
  | _ => Except.ok [rrB1]

/-- A per-user record of the `.scholar_usage.json` store
(`app/services/paper_search/google_scholar.py`); absent JSON keys are read
back with the defaults `''` and `0` via `dict.get`. -/
structure RateRecord where
  last_search_date : String := ""
  usage_count : Int := 0
  last_search_time : String := ""
deriving DecidableEq, Repr

/-- The rate-limit store file: missing, unreadable or unparsable (reading or
decoding raises), or a readable JSON object from user ids to records. -/
inductive FileState where
  | missing
  | corrupt
  | ok (data : List (String × RateRecord))
deriving DecidableEq, Repr

/-- Python `data.get(user_id, ...)` on the JSON object, modelled as an
association list in key-insertion order. -/
def lookupUser (data : List (String × RateRecord)) (user_id : String) :
    Option RateRecord :=
  match data.find? (fun kv => kv.1 == user_id) with
  | some kv => some kv.2
  | none => none

/-- Python `data[user_id] = record`: replace the user's entry, or append a
new one. -/
def setUser (data : List (String × RateRecord)) (user_id : String)
    (record : RateRecord) : List (String × RateRecord) :=
  if data.any (fun kv => kv.1 == user_id) then
    data.map (fun kv => if kv.1 == user_id then (kv.1, record) else kv)
  else data ++ [(user_id, record)]

/-- `GoogleScholarSearcher._check_rate_limit`: `True` when the file is
missing, when reading or parsing it raises (the `except` returns `True` —
fail open), when the user's last search was on another day, or when the
user's count is below the daily limit. -/
def check_rate_limit (daily_limit : Int) (today : String) (user_id : String)
    (fs : FileState) : Bool :=
  match fs with
  | .missing => true
  | .corrupt => true
  | .ok data =>
    let ud := (lookupUser data user_id).getD {}
    if ud.last_search_date ≠ today then true
    else ud.usage_count < daily_limit

/-- The record `_update_rate_limit` writes for a user: reset to count 1 on a
new day, otherwise increment the count and refresh the timestamp. -/
def updatedRecord (today now : String) (ud : RateRecord) : RateRecord :=
  if ud.last_search_date ≠ today then
    { last_search_date := today, usage_count := 1, last_search_time := now }
  else
    { ud with usage_count := ud.usage_count + 1, last_search_time := now }

/-- `GoogleScholarSearcher._update_rate_limit`: a corrupt file makes
`json.load` raise, the `except` swallows it and the file is left unchanged;
otherwise the user's record is rewritten.  `write_ok` tells whether the
`json.dump` succeeds — on failure the exception is swallowed and the store
keeps its previous content. -/
def update_rate_limit (today now : String) (user_id : String) (fs : FileState)
    (write_ok : Bool) : FileState :=
  match fs with
  | .corrupt => .corrupt
  | .missing =>
    if write_ok then
      .ok (setUser [] user_id (updatedRecord today now ((lookupUser [] user_id).getD {})))
    else .missing
  | .ok data =>
    if write_ok then
      .ok (setUser data user_id (updatedRecord today now ((lookupUser data user_id).getD {})))
    else .ok data

/-- `GoogleScholarSearcher` configuration: whether `settings.serp_api_key` is
set, whether the `serpapi` import succeeded, and the (configurable) per-user
daily limit, `1` by default. -/
structure ScholarConfig where
  api_key_present : Bool
  serpapi_available : Bool
  daily_limit_per_user : Int := 1
deriving DecidableEq, Repr

/-- The observable result of one `GoogleScholarSearcher.search` call: the
returned papers, the rate-limit file afterwards, and whether an upstream
(SERP API) request was made. -/
structure ScholarResult where
  papers : List Paper
  file : FileState
  upstream_called : Bool
deriving DecidableEq, Repr

/-- `GoogleScholarSearcher._mock_scholar_results`.  The `hashlib.md5`
hexdigest only serves as an opaque unique id, so it is modelled as a tagged
string. -/
def mock_scholar_results (query : String) (max_results : Int) : List Paper :=
  (List.range (min max_results 3).toNat).map (fun i =>
    { id := "md5:scholar_mock_" ++ query ++ "_" ++ toString i,
      title := "Mock Google Scholar Paper " ++ toString (i + 1) ++ " for '" ++ query ++ "'",
      abstract := "This is a mock abstract for paper " ++ toString (i + 1) ++
        " from Google Scholar search. It contains relevant information about " ++ query ++ ".",
      authors := ["Author " ++ toString (i + 1) ++ "A", "Author " ++ toString (i + 1) ++ "B"],
      published := "202" ++ toString (3 - i) ++ "-01-01T00:00:00Z",
      pdf_url := some ("https://example.com/paper" ++ toString (i + 1) ++ ".pdf"),
      source := .google_scholar,
      doi := some ("10.1000/mock.scholar." ++ toString (i + 1)),
      citation_count := some (50 - 10 * (i : Int)),
      venue := some ("Mock Journal " ++ toString (i + 1)),
      keywords := ["keyword" ++ toString (i + 1),
        match pySplit query with | [] => "research" | w :: _ => w] })

/-- `GoogleScholarSearcher.search`: refuse when the user's daily limit is
reached; fall back to mock results (without recording usage) when no API key
is configured or `serpapi` is missing; otherwise record the usage and call
upstream.  `upstream` abstracts the `_search_sync` executor call — if it
raises, the enclosing handler returns `[]`. -/
def scholar_search (cfg : ScholarConfig) (today now : String)
    (upstream : Except Unit (List Paper)) (query : String) (max_results : Int)
    (fs : FileState) (write_ok : Bool) (user_id : String := "default") :
    ScholarResult :=
  if !(check_rate_limit cfg.daily_limit_per_user today user_id fs) then
    { papers := [], file := fs, upstream_called := false }
  else if !cfg.api_key_present || !cfg.serpapi_available then
    { papers := mock_scholar_results query max_results, file := fs, upstream_called := false }
  else
    let fs2 := update_rate_limit today now user_id fs write_ok
    match upstream with
    | .ok papers => { papers := papers, file := fs2, upstream_called := true }
    | .error _ => { papers := [], file := fs2, upstream_called := true }

/-- The Google-Scholar side effect of `search_all_sources`: `_safe_search`
recognises the `GoogleScholarSearcher` and forwards the aggregator's
`user_id` parameter (default `"default"`) to its `search`. -/
def search_all_sources_scholar (cfg : ScholarConfig) (today now : String)
    (upstream : Except Unit (List Paper)) (query : String) (max_results : Int)
    (fs : FileState) (write_ok : Bool) (user_id : String := "default") :
    ScholarResult :=
  scholar_search cfg today now upstream query max_results fs write_ok user_id

/-- The Google-Scholar side effect of the orchestrator's
`process_search_task` (`app/api/v1/endpoints/search.py`, lines 216-222): the
call to `search_all_sources` passes query, sources, max_results, date_range
and sort_by but omits `user_id`, so the aggregator's default `"default"` is
used and the requesting user id never reaches the rate limiter (the parameter is deliberately unused, mirroring the call site). -/
def process_search_task_scholar (cfg : ScholarConfig) (today now : String)
    (upstream : Except Unit (List Paper)) (query : String) (max_results : Int)
    (_request_user : String) (fs : FileState) (write_ok : Bool) : ScholarResult :=
  search_all_sources_scholar cfg today now upstream query max_results fs write_ok

/-- A readable store whose usage counts are non-negative, as are all counts
the updater ever writes. -/
def FileStateWF : FileState → Prop
  | .missing => True
  | .corrupt => False
  | .ok data => ∀ kv ∈ data, 0 ≤ kv.2.usage_count

/-- `SearchStatus` enum from `app/models/search.py`. -/
inductive SearchStatus where
  | pending
  | processing
  | completed
  | failed
deriving DecidableEq, Repr

/-- Which awaited steps of `process_search_task` can raise in a given
execution.  `increment_api_usage` is not among them: it wraps its whole body
in `try/except Exception` and never raises (`app/core/dependencies.py`,
"Don't raise exception here to avoid breaking the main flow"), so the call
after the COMPLETED write contributes no failure path. -/
structure TaskFailures where
  update_processing_raises : Bool := false
  analyze_papers_raises : Bool := false
  store_papers_raises : Bool := false
  update_completed_raises : Bool := false
deriving DecidableEq, Repr

/-- The sequence of statuses `process_search_task` writes to the session in
one execution (each write is an `update_session_status` call), given the
aggregator's result, the request's `generate_analysis` flag, and which steps
raise.  A raising status write does not land; any raise sends control to the
`except` handler, whose FAILED write is assumed to land.  The only step
after the COMPLETED write, `increment_api_usage`, swallows its own
exceptions and never raises into the task. -/
def process_search_task_statuses (papers : List Paper) (generate_analysis : Bool)
    (f : TaskFailures) : List SearchStatus :=
  if f.update_processing_raises then [.failed]
  else if papers = [] then
    if f.update_completed_raises then [.processing, .failed]
    else [.processing, .completed]
  else if generate_analysis && f.analyze_papers_raises then [.processing, .failed]
  else if f.store_papers_raises then [.processing, .failed]
  else if f.update_completed_raises then [.processing, .failed]
  else [.processing, .completed]

/-- COMPLETED and FAILED are the terminal statuses. -/
def isTerminal : SearchStatus → Bool
  | .completed => true
  | .failed => true
  | _ => false

/-- The claimed monotonicity: no status write follows a terminal one. -/
def monotonicStatuses (l : List SearchStatus) : Prop :=
  l.Pairwise (fun a _ => isTerminal a = false)

instance : DecidablePred monotonicStatuses := fun l => by
  unfold monotonicStatuses; infer_instance

/-- Similarity to the empty title is zero. -/
theorem sim_empty_left (t : String) : calculate_title_similarity "" t = 0 := by
  simp [calculate_title_similarity]

/-- The similarity threshold is positive. -/
theorem similarityThreshold_pos : 0 < similarityThreshold := by decide

/-- Jaccard title similarity is symmetric. -/
theorem calculate_title_similarity_comm (t1 t2 : String) :
    calculate_title_similarity t1 t2 = calculate_title_similarity t2 t1 := by
  unfold calculate_title_similarity
  by_cases h1 : t1 = "" ∨ t2 = ""
  · rw [if_pos h1, if_pos (Or.symm h1)]
  · rw [if_neg h1, if_neg (fun h => h1 (Or.symm h))]
    by_cases h2 : wordSet t1 = ∅ ∨ wordSet t2 = ∅
    · rw [if_pos h2, if_pos (Or.symm h2)]
    · rw [if_neg h2, if_neg (fun h => h2 (Or.symm h))]
      rw [Finset.inter_comm, Finset.union_comm]

/-- The seen-title scan succeeds exactly when some seen title is more than
`0.85`-similar. -/
theorem is_similar_title_iff (t : String) (seen : List String) :
    is_similar_title t seen = true ↔
      ∃ s ∈ seen, calculate_title_similarity t s > similarityThreshold := by
  unfold is_similar_title
  by_cases ht : t = ""
  · subst ht
    rw [if_pos rfl]
    constructor
    · intro h; exact absurd h (by simp)
    · rintro ⟨s, _, hs⟩
      rw [sim_empty_left] at hs
      exact absurd hs (by simp [similarityThreshold_pos, le_of_lt])
  · rw [if_neg ht, List.any_eq_true]
    simp only [decide_eq_true_eq]

/-- The drop condition of the dedup loop coincides with being the same (in the
amended sense) as some already kept paper, given that the seen sets reflect
the kept papers. -/
theorem dedup_drop_iff (p : Paper) (kept : List Paper) (dois titles : List String)
    (hdoi : ∀ d : String, d ∈ dois ↔ ∃ q ∈ kept, doiTruthy q.doi = true ∧ q.doi = some d)
    (htit : ∀ t : String, t ∈ titles ↔ ∃ q ∈ kept, normalize_title q.title = t) :
    ((doiTruthy p.doi && decide (p.doi.getD "" ∈ dois)) = true ∨
        is_similar_title (normalize_title p.title) titles = true) ↔
      kept.any (fun q => decide (samePaperAmended q p)) = true := by
  rw [List.any_eq_true]
  constructor
  · rintro (h | h)
    · rw [Bool.and_eq_true, decide_eq_true_eq] at h
      obtain ⟨htr, hmem⟩ := h
      obtain ⟨q, hq, hqt, hqd⟩ := (hdoi _).mp hmem
      refine ⟨q, hq, ?_⟩
      rw [decide_eq_true_eq]
      left
      refine ⟨hqt, ?_⟩
      cases hpd : p.doi with
      | none => rw [hpd] at htr; exact absurd htr (by simp [doiTruthy])
      | some d => rw [hpd] at hqd; simpa using hqd
    · obtain ⟨s, hs, hsim⟩ := (is_similar_title_iff _ _).mp h
      obtain ⟨q, hq, hqe⟩ := (htit _).mp hs
      refine ⟨q, hq, ?_⟩
      rw [decide_eq_true_eq]
      right
      rw [calculate_title_similarity_comm, hqe]
      exact hsim
  · rintro ⟨q, hq, hsame⟩
    rw [decide_eq_true_eq] at hsame
    rcases hsame with ⟨hqt, hqd⟩ | hsim
    · left
      rw [Bool.and_eq_true, decide_eq_true_eq]
      cases hqdoi : q.doi with
      | none => rw [hqdoi] at hqt; exact absurd hqt (by simp [doiTruthy])
      | some d =>
        rw [hqdoi] at hqd hqt
        refine ⟨by rw [← hqd]; exact hqt, ?_⟩
        rw [← hqd]
        simp only [Option.getD_some]
        exact (hdoi d).mpr ⟨q, hq, by rw [hqdoi]; exact hqt, by rw [hqdoi]⟩
    · right
      rw [is_similar_title_iff]
      refine ⟨normalize_title q.title, (htit _).mpr ⟨q, hq, rfl⟩, ?_⟩
      rw [calculate_title_similarity_comm] at hsim
      exact hsim

/-- The dedup loop computes the greedy first-wins filter under the amended
sameness relation, whenever the seen sets reflect the kept papers. -/
theorem dedupGo_eq_greedyGo (l : List Paper) :
    ∀ (kept : List Paper) (dois titles : List String),
    (∀ d : String, d ∈ dois ↔ ∃ q ∈ kept, doiTruthy q.doi = true ∧ q.doi = some d) →
    (∀ t : String, t ∈ titles ↔ ∃ q ∈ kept, normalize_title q.title = t) →
    dedupGo l dois titles = greedyFilterGo samePaperAmended kept l := by
  induction l with
  | nil => intro kept dois titles _ _; rfl
  | cons p rest ih =>
    intro kept dois titles hdoi htit
    by_cases hc1 : (doiTruthy p.doi && decide (p.doi.getD "" ∈ dois)) = true
    · have hdrop : kept.any (fun q => decide (samePaperAmended q p)) = true :=
        (dedup_drop_iff p kept dois titles hdoi htit).mp (Or.inl hc1)
      rw [dedupGo, if_pos hc1, greedyFilterGo, if_pos hdrop]
      exact ih kept dois titles hdoi htit
    · by_cases hc2 : is_similar_title (normalize_title p.title) titles = true
      · have hdrop : kept.any (fun q => decide (samePaperAmended q p)) = true :=
          (dedup_drop_iff p kept dois titles hdoi htit).mp (Or.inr hc2)
        rw [dedupGo, if_neg hc1, if_pos hc2, greedyFilterGo, if_pos hdrop]
        exact ih kept dois titles hdoi htit
      · have hkeep : ¬ kept.any (fun q => decide (samePaperAmended q p)) = true := by
          intro h
          rcases (dedup_drop_iff p kept dois titles hdoi htit).mpr h with h1 | h2
          · exact hc1 h1
          · exact hc2 h2
        rw [dedupGo, if_neg hc1, if_neg hc2, greedyFilterGo, if_neg hkeep]
        congr 1
        apply ih
        · intro d
          by_cases hpt : doiTruthy p.doi = true
          · rw [if_pos hpt]
            simp only [List.mem_cons, List.mem_append, List.not_mem_nil, or_false]
            constructor
            · rintro (rfl | hd)
              · refine ⟨p, Or.inr rfl, hpt, ?_⟩
                cases hpd : p.doi with
                | none => rw [hpd] at hpt; exact absurd hpt (by simp [doiTruthy])
                | some v => rfl
              · obtain ⟨q, hq, hqt, hqd⟩ := (hdoi d).mp hd
                exact ⟨q, Or.inl hq, hqt, hqd⟩
            · rintro ⟨q, hq | rfl, hqt, hqd⟩
              · exact Or.inr ((hdoi d).mpr ⟨q, hq, hqt, hqd⟩)
              · left
                rw [hqd, Option.getD_some]
          · rw [if_neg hpt]
            simp only [List.mem_append, List.not_mem_nil, or_false, List.mem_cons]
            constructor
            · intro hd
              obtain ⟨q, hq, hqt, hqd⟩ := (hdoi d).mp hd
              exact ⟨q, Or.inl hq, hqt, hqd⟩
            · rintro ⟨q, hq | rfl, hqt, hqd⟩
              · exact (hdoi d).mpr ⟨q, hq, hqt, hqd⟩
              · exact absurd hqt hpt
        · intro t
          simp only [List.mem_cons, List.mem_append, List.not_mem_nil, or_false]
          constructor
          · rintro (rfl | ht)
            · exact ⟨p, Or.inr rfl, rfl⟩
            · obtain ⟨q, hq, hqe⟩ := (htit t).mp ht
              exact ⟨q, Or.inl hq, hqe⟩
          · rintro ⟨q, hq | rfl, hqe⟩
            · exact Or.inr ((htit t).mpr ⟨q, hq, hqe⟩)
            · exact Or.inl hqe.symm

/-- The dedup loop is idempotent relative to any seen sets. -/
theorem dedupGo_idem (l : List Paper) :
    ∀ (dois titles : List String),
    dedupGo (dedupGo l dois titles) dois titles = dedupGo l dois titles := by
  induction l with
  | nil => intro dois titles; rfl
  | cons p rest ih =>
    intro dois titles
    by_cases hc1 : (doiTruthy p.doi && decide (p.doi.getD "" ∈ dois)) = true
    · rw [dedupGo, if_pos hc1]
      exact ih dois titles
    · by_cases hc2 : is_similar_title (normalize_title p.title) titles = true
      · rw [dedupGo, if_neg hc1, if_pos hc2]
        exact ih dois titles
      · have hstep : dedupGo (p :: rest) dois titles =
            p :: dedupGo rest
              (if doiTruthy p.doi then p.doi.getD "" :: dois else dois)
              (normalize_title p.title :: titles) := by
          rw [dedupGo, if_neg hc1, if_neg hc2]
        rw [hstep, dedupGo, if_neg hc1, if_neg hc2, ih]

/-- Claim C1, counterexample: two papers whose DOIs are non-null (`some ""`)
and equal are the same paper under the claimed relation, yet
`_deduplicate_papers` keeps both, because the Python guard `if paper.doi`
tests truthiness and the empty string is falsy.  So it is not the case that
only the first-encountered of two same papers appears in the output. -/
theorem claim_c1_counterexample :
    samePaperSpec paperEmptyDoiA paperEmptyDoiB ∧
      deduplicate_papers [paperEmptyDoiA, paperEmptyDoiB] =
        [paperEmptyDoiA, paperEmptyDoiB] := by
  decide

/-- Claim C1, amended: with "non-null DOI" strengthened to "non-null and
non-empty DOI", deduplication is exactly the greedy first-wins filter under
the claimed sameness relation; in particular two papers with identical
non-empty DOI and different titles collapse to the first one. -/
theorem claim_c1_dedup_first_wins :
    (∀ papers : List Paper,
        deduplicate_papers papers = greedyFilter samePaperAmended papers) ∧
      deduplicate_papers [paperSharedDoiA, paperSharedDoiB] = [paperSharedDoiA] := by
  constructor
  · intro papers
    unfold deduplicate_papers greedyFilter
    apply dedupGo_eq_greedyGo
    · intro d
      simp
    · intro t
      simp
  · decide

/-- Claim C6: `_deduplicate_papers` is idempotent — applying it to its own
output returns that output unchanged. -/
theorem claim_c6_dedup_idempotent (papers : List Paper) :
    deduplicate_papers (deduplicate_papers papers) = deduplicate_papers papers := by
  unfold deduplicate_papers
  exact dedupGo_idem papers [] []

/-- Folding the grouping step over papers of one source appends them all to
that source's group, provided the group is last and no earlier group has that
source. -/
theorem foldl_groupStep_same (s : PaperSource) (l : List Paper) :
    ∀ (pre : List (PaperSource × List Paper)) (cur : List Paper),
    (∀ p ∈ l, p.source = s) → (∀ g ∈ pre, g.1 ≠ s) →
    List.foldl groupStep (pre ++ [(s, cur)]) l = pre ++ [(s, cur ++ l)] := by
  induction l with
  | nil =>
    intro pre cur _ _
    simp
  | cons p rest ih =>
    intro pre cur hl hpre
    have hps : p.source = s := hl p (List.mem_cons_self p rest)
    have hstep : groupStep (pre ++ [(s, cur)]) p = pre ++ [(s, cur ++ [p])] := by
      unfold groupStep
      have hany : ((pre ++ [(s, cur)]).any (fun g => g.1 == p.source)) = true := by
        rw [List.any_eq_true]
        exact ⟨(s, cur), by simp, by simp [hps]⟩
      rw [if_pos hany, List.map_append]
      have hmap : pre.map (fun g => if g.1 == p.source then (g.1, g.2 ++ [p]) else g) = pre := by
        conv_rhs => rw [← List.map_id pre]
        apply List.map_congr_left
        intro g hg
        have hgs : (g.1 == p.source) = false := by
          rw [beq_eq_false_iff_ne, hps]
          exact hpre g hg
        simp [hgs]
      rw [hmap]
      simp [hps]
    rw [List.foldl_cons, hstep,
      ih pre (cur ++ [p]) (fun q hq => hl q (List.mem_cons_of_mem p hq)) hpre]
    simp

/-- Grouping a single-source list yields its one group. -/
theorem group_by_source_single (s : PaperSource) (a : Paper) (l : List Paper)
    (hl : ∀ p ∈ a :: l, p.source = s) :
    group_by_source (a :: l) = [(s, a :: l)] := by
  unfold group_by_source
  rw [List.foldl_cons]
  have hstep : groupStep [] a = [(s, [a])] := by
    unfold groupStep
    simp [hl a (List.mem_cons_self a l)]
  rw [hstep]
  have := foldl_groupStep_same s l [] [a]
    (fun q hq => hl q (List.mem_cons_of_mem a hq)) (by simp)
  simpa using this

/-- Grouping the concatenation of two non-empty single-source lists with
distinct sources yields the two groups in order of first appearance. -/
theorem group_by_source_two (sA sB : PaperSource) (a b : Paper)
    (la lb : List Paper)
    (hA : ∀ p ∈ a :: la, p.source = sA) (hB : ∀ p ∈ b :: lb, p.source = sB)
    (hne : sA ≠ sB) :
    group_by_source ((a :: la) ++ (b :: lb)) = [(sA, a :: la), (sB, b :: lb)] := by
  unfold group_by_source
  rw [List.foldl_append]
  have h1 : List.foldl groupStep [] (a :: la) = [(sA, a :: la)] := by
    have := group_by_source_single sA a la hA
    unfold group_by_source at this
    exact this
  rw [h1, List.foldl_cons]
  have hbs : b.source = sB := hB b (List.mem_cons_self b lb)
  have hstep : groupStep [(sA, a :: la)] b = [(sA, a :: la), (sB, [b])] := by
    unfold groupStep
    have hany : (([(sA, a :: la)] : List (PaperSource × List Paper)).any
        (fun g => g.1 == b.source)) = false := by
      simp [hbs, hne]
    rw [hany]
    simp [hbs]
  rw [hstep]
  have := foldl_groupStep_same sB lb [(sA, a :: la)] [b]
    (fun q hq => hB q (List.mem_cons_of_mem b hq)) (by simpa using hne)
  simpa using this

/-- Reading a list back by indices `0, ..., length - 1` returns the list. -/
theorem flatten_range_getElem (l : List Paper) :
    ((List.range l.length).map (fun i => l[i]?.toList)).flatten = l := by
  induction l with
  | nil => rfl
  | cons x xs ih =>
    rw [List.length_cons, List.range_succ_eq_map, List.map_cons, List.map_map]
    have hc : ((fun i => (x :: xs)[i]?.toList) ∘ Nat.succ) =
        fun i => xs[i]?.toList := by
      funext i
      simp
    rw [hc, List.flatten_cons, ih]
    simp

/-- Index-wise round-robin over two lists equals the recursive
interleaving. -/
theorem flatten_range_two (la : List Paper) :
    ∀ lb : List Paper,
    ((List.range (max la.length lb.length)).map
        (fun i => la[i]?.toList ++ lb[i]?.toList)).flatten = roundRobin2 la lb := by
  induction la with
  | nil =>
    intro lb
    rw [List.length_nil, Nat.zero_max]
    have hc : (fun (i : Nat) => ([] : List Paper)[i]?.toList ++ lb[i]?.toList) =
        fun (i : Nat) => lb[i]?.toList := by
      funext i
      simp
    rw [hc, flatten_range_getElem]
    rfl
  | cons a as ih =>
    intro lb
    cases lb with
    | nil =>
      rw [List.length_nil, Nat.max_zero]
      have hc : (fun (i : Nat) => (a :: as)[i]?.toList ++ ([] : List Paper)[i]?.toList) =
          fun (i : Nat) => (a :: as)[i]?.toList := by
        funext i
        simp
      rw [hc, flatten_range_getElem]
      rfl
    | cons b bs =>
      rw [List.length_cons, List.length_cons, Nat.succ_max_succ,
        List.range_succ_eq_map, List.map_cons, List.map_map]
      have hc : ((fun (i : Nat) => (a :: as)[i]?.toList ++ (b :: bs)[i]?.toList) ∘ Nat.succ) =
          fun (i : Nat) => as[i]?.toList ++ bs[i]?.toList := by
        funext i
        simp
      rw [hc, List.flatten_cons, ih bs]
      simp [roundRobin2]

/-- `filterMap` over a two-element list, written with `Option.toList`. -/
theorem filterMap_pair {α β : Type} (f : α → Option β) (x y : α) :
    List.filterMap f [x, y] = (f x).toList ++ (f y).toList := by
  cases hfx : f x <;> cases hfy : f y <;>
    simp [List.filterMap_cons, hfx, hfy]

/-- The diversity sort leaves a single-source list unchanged. -/
theorem diversity_single (s : PaperSource) (l : List Paper)
    (hl : ∀ p ∈ l, p.source = s) :
    sort_by_relevance_with_diversity l = l := by
  cases l with
  | nil => rfl
  | cons a xs =>
    unfold sort_by_relevance_with_diversity
    rw [group_by_source_single s a xs hl]
    have hmax : (([(s, a :: xs)] : List (PaperSource × List Paper)).map
        (fun g => g.2.length)).foldl max 0 = (a :: xs).length := by
      simp
    rw [hmax]
    have hc : (fun (i : Nat) => (([(s, a :: xs)] : List (PaperSource × List Paper)).filterMap
        (fun g => g.2[i]?))) = fun (i : Nat) => (a :: xs)[i]?.toList := by
      funext i
      cases hx : (a :: xs)[i]? <;> simp [List.filterMap_cons, hx]
    rw [hc, flatten_range_getElem]

/-- Claim C4: on a pool made of source `sA`'s papers followed by source
`sB`'s papers (`sA ≠ sB`), the RELEVANCE sort round-robin-interleaves the two
groups, preserving each group's internal order. -/
theorem claim_c4_relevance_interleaves (sA sB : PaperSource) (la lb : List Paper)
    (hA : ∀ p ∈ la, p.source = sA) (hB : ∀ p ∈ lb, p.source = sB)
    (hne : sA ≠ sB) :
    sort_papers (la ++ lb) SortBy.relevance = roundRobin2 la lb := by
  cases la with
  | nil =>
    cases lb with
    | nil => rfl
    | cons b bs =>
      rw [List.nil_append, sort_papers, if_neg (by simp)]
      exact diversity_single sB (b :: bs) hB
  | cons a as =>
    cases lb with
    | nil =>
      rw [List.append_nil, sort_papers, if_neg (by simp)]
      exact diversity_single sA (a :: as) hA
    | cons b bs =>
      rw [sort_papers, if_neg (by simp)]
      show sort_by_relevance_with_diversity ((a :: as) ++ (b :: bs)) = _
      unfold sort_by_relevance_with_diversity
      rw [group_by_source_two sA sB a b as bs hA hB hne]
      have hmax : (([(sA, a :: as), (sB, b :: bs)] : List (PaperSource × List Paper)).map
          (fun g => g.2.length)).foldl max 0 = max (a :: as).length (b :: bs).length := by
        simp [Nat.zero_max]
      rw [hmax]
      have hc : (fun (i : Nat) => (([(sA, a :: as), (sB, b :: bs)] :
          List (PaperSource × List Paper)).filterMap (fun g => g.2[i]?))) =
          fun (i : Nat) => (a :: as)[i]?.toList ++ (b :: bs)[i]?.toList := by
        funext i
        exact filterMap_pair (fun g => g.2[i]?) (sA, a :: as) (sB, b :: bs)
      rw [hc]
      exact flatten_range_two (a :: as) (b :: bs)

/-- Claim C4, witness: sources A = `[a1, a2, a3]` and B = `[b1, b2]` produce
exactly `[a1, b1, a2, b2, a3]` under the RELEVANCE sort. -/
theorem claim_c4_relevance_interleaves_witness :
    sort_papers [rrA1, rrA2, rrA3, rrB1, rrB2] SortBy.relevance =
      [rrA1, rrB1, rrA2, rrB2, rrA3] :=
  claim_c4_relevance_interleaves PaperSource.arxiv PaperSource.pubmed
    [rrA1, rrA2, rrA3] [rrB1, rrB2] (by decide) (by decide) (by decide)

/-- Claim C5: after the CITED sort, whenever `a` appears before `b`:
papers lacking a citation count never precede papers with a non-negative
one, citation counts are non-increasing, and equal citation counts (equal
absence included) are ordered by descending published date string; moreover
the output is a permutation of the input. -/
theorem claim_c5_cited_sort (papers : List Paper) :
    List.Perm (sort_papers papers .cited) papers ∧
      (sort_papers papers .cited).Pairwise (fun a b =>
        (a.citation_count = none → ∀ c : Int, b.citation_count = some c → c < 0) ∧
        (∀ ca cb : Int, a.citation_count = some ca → b.citation_count = some cb → cb ≤ ca) ∧
        (a.citation_count = b.citation_count → b.published ≤ a.published)) := by
  by_cases hnil : papers = []
  · subst hnil
    exact ⟨List.Perm.refl _, List.Pairwise.nil⟩
  · have hrw : sort_papers papers .cited = papers.insertionSort citedGE := by
      rw [sort_papers, if_neg hnil]
    rw [hrw]
    refine ⟨List.perm_insertionSort citedGE papers, ?_⟩
    have hs : List.Pairwise citedGE (papers.insertionSort citedGE) :=
      List.sorted_insertionSort citedGE papers
    refine hs.imp ?_
    intro a b hab
    unfold citedGE citation_key at hab
    rw [Prod.Lex.le_iff] at hab
    refine ⟨?_, ?_, ?_⟩
    · intro ha c hb
      rw [ha, hb] at hab
      rcases hab with h | ⟨h, _⟩
      · simpa using lt_trans h (by norm_num)
      · simp only [Option.getD_some, Option.getD_none] at h
        omega
    · intro ca cb ha hb
      rw [ha, hb] at hab
      rcases hab with h | ⟨h, _⟩
      · simp only [Option.getD_some] at h
        exact le_of_lt h
      · simp only [Option.getD_some] at h
        omega
    · intro hcc
      rw [hcc] at hab
      rcases hab with h | ⟨_, h⟩
      · exact absurd h (lt_irrefl _)
      · exact h

/-- Claim C2: when the adapter of a requested, configured source raises, the
aggregate call is unchanged by replacing that adapter with one returning zero
results — the failing source contributes nothing, sibling sources are
unaffected, and the result is exactly the surviving sources' deduplicated,
sorted, truncated union (the call itself never raises: the model is total
because `_safe_search` catches the task's exception). -/
theorem claim_c2_partial_failure (outcome : PaperSource → Int → SearchOutcome)
    (sources : List PaperSource) (max_results : Int) (sort_by : SortBy)
    (sf : PaperSource) (hmem : sf ∈ sources) (hknown : knownSource sf = true)
    (hraises : outcome sf (results_per_source max_results sources.length) =
      Except.error ()) :
    safe_search (outcome sf (results_per_source max_results sources.length)) = [] ∧
      search_all_sources outcome sources max_results sort_by =
        search_all_sources
          (fun s n => if s = sf then Except.ok [] else outcome s n)
          sources max_results sort_by ∧
      search_all_sources outcome sources max_results sort_by =
        pySlice max_results (sort_papers (deduplicate_papers
          (((sources.filter (fun s => knownSource s)).map
            (fun s => safe_search (outcome s (results_per_source max_results sources.length)))).flatten))
          sort_by) := by
  have hmap : ∀ s ∈ sources.filter (fun s => knownSource s),
      safe_search ((fun s n => if s = sf then Except.ok [] else outcome s n) s
        (results_per_source max_results sources.length)) =
      safe_search (outcome s (results_per_source max_results sources.length)) := by
    intro s _
    by_cases hs : s = sf
    · subst hs
      rw [hraises]
      simp [safe_search]
    · simp [hs]
  refine ⟨by rw [hraises]; rfl, ?_, ?_⟩
  · unfold search_all_sources
    rw [List.map_congr_left hmap]
  · unfold search_all_sources
    have hlen : sources.length ≠ 0 := by
      intro h
      rw [List.length_eq_zero] at h
      subst h
      exact absurd hmem (List.not_mem_nil sf)
    have hvalid : sources.filter (fun s => knownSource s) ≠ [] := by
      intro h
      have : sf ∈ sources.filter (fun s => knownSource s) :=
        List.mem_filter.mpr ⟨hmem, hknown⟩
      rw [h] at this
      exact absurd this (List.not_mem_nil sf)
    rw [if_neg hlen, if_neg hvalid]

/-- Claim C2, witness: in the two-source scenario with the arXiv adapter
forced to throw, the call is equivalent to arXiv returning zero results and
yields exactly the surviving source's pipeline. -/
theorem claim_c2_partial_failure_witness :
    safe_search (partialFailureOutcome PaperSource.arxiv (results_per_source 10 2)) = [] ∧
      search_all_sources partialFailureOutcome
          [PaperSource.arxiv, PaperSource.pubmed] 10 SortBy.relevance =
        search_all_sources
          (fun s n => if s = PaperSource.arxiv then Except.ok [] else partialFailureOutcome s n)
          [PaperSource.arxiv, PaperSource.pubmed] 10 SortBy.relevance ∧
      search_all_sources partialFailureOutcome
          [PaperSource.arxiv, PaperSource.pubmed] 10 SortBy.relevance =
        pySlice 10 (sort_papers (deduplicate_papers
          ((([PaperSource.arxiv, PaperSource.pubmed].filter (fun s => knownSource s)).map
            (fun s => safe_search (partialFailureOutcome s (results_per_source 10 2)))).flatten))
          SortBy.relevance) :=
  claim_c2_partial_failure partialFailureOutcome
    [PaperSource.arxiv, PaperSource.pubmed] 10 SortBy.relevance
    PaperSource.arxiv (by decide) (by decide) rfl

/-- Claim C3, counterexample: with a negative `max_results` the length bound
fails — Python slicing accepts negative bounds, so the claim only holds for
non-negative budgets. -/
theorem claim_c3_counterexample :
    ¬ (((search_all_sources (fun _ _ => Except.ok [paperSharedDoiA])
          [PaperSource.arxiv] (-1) SortBy.relevance).length : Int) ≤ -1) := by
  decide

/-- Claim C3, amended: for every call with a non-negative `max_results` (the
API validator enforces `1 ≤ max_results ≤ 100`), the aggregate result has at
most `max_results` papers. -/
theorem claim_c3_budget (outcome : PaperSource → Int → SearchOutcome)
    (sources : List PaperSource) (max_results : Int) (sort_by : SortBy)
    (hmr : 0 ≤ max_results) :
    ((search_all_sources outcome sources max_results sort_by).length : Int) ≤
      max_results := by
  unfold search_all_sources
  by_cases h0 : sources.length = 0
  · rw [if_pos h0]
    simpa using hmr
  · rw [if_neg h0]
    by_cases h1 : sources.filter (fun s => knownSource s) = []
    · rw [if_pos h1]
      simpa using hmr
    · rw [if_neg h1]
      unfold pySlice
      rw [if_pos hmr]
      calc ((List.take max_results.toNat _).length : Int)
          ≤ (max_results.toNat : Int) := by
            rw [List.length_take]
            exact_mod_cast Nat.min_le_left _ _
        _ = max_results := Int.toNat_of_nonneg hmr

/-- Claim C3, witness: a concrete call with `max_results = 1` and two
configured sources returns at most one paper. -/
theorem claim_c3_budget_witness :
    ((search_all_sources (fun _ _ => Except.ok [paperSharedDoiA, rrB1])
        [PaperSource.arxiv, PaperSource.pubmed] 1 SortBy.relevance).length : Int) ≤ 1 :=
  claim_c3_budget (fun _ _ => Except.ok [paperSharedDoiA, rrB1])
    [PaperSource.arxiv, PaperSource.pubmed] 1 SortBy.relevance (by decide)

/-- Looking a user up in a map-rewrite of that user's entry finds the new
record, provided the user was present. -/
theorem lookupUser_map_set (u : String) (r : RateRecord) :
    ∀ data : List (String × RateRecord),
    data.any (fun kv => kv.1 == u) = true →
    lookupUser (data.map (fun kv => if kv.1 == u then (kv.1, r) else kv)) u = some r := by
  intro data
  induction data with
  | nil => intro h; simp at h
  | cons kv tl ih =>
    intro h
    rw [List.map_cons]
    by_cases hkv : (kv.1 == u) = true
    · rw [if_pos hkv]
      unfold lookupUser
      rw [List.find?_cons]
      simp [hkv]
    · rw [if_neg hkv]
      unfold lookupUser
      rw [List.find?_cons]
      have hkvf : (kv.1 == u) = false := Bool.of_not_eq_true hkv
      have htl : tl.any (fun kv => kv.1 == u) = true := by
        rw [List.any_cons] at h
        rcases Bool.or_eq_true_iff.mp h with h1 | h2
        · exact absurd h1 hkv
        · exact h2
      have := ih htl
      unfold lookupUser at this
      simpa [hkvf] using this

/-- Looking a user up after appending that user's fresh entry finds it,
provided the user was absent before. -/
theorem lookupUser_append_new (u : String) (r : RateRecord) :
    ∀ data : List (String × RateRecord),
    data.any (fun kv => kv.1 == u) = false →
    lookupUser (data ++ [(u, r)]) u = some r := by
  intro data
  induction data with
  | nil =>
    intro _
    unfold lookupUser
    rw [List.nil_append, List.find?_cons]
    simp
  | cons kv tl ih =>
    intro h
    rw [List.any_cons, Bool.or_eq_false_iff] at h
    rw [List.cons_append]
    unfold lookupUser
    rw [List.find?_cons]
    have := ih h.2
    unfold lookupUser at this
    simpa [h.1] using this

/-- Looking up a user right after `setUser` for that user yields the new
record. -/
theorem lookupUser_setUser_self (data : List (String × RateRecord))
    (u : String) (r : RateRecord) :
    lookupUser (setUser data u r) u = some r := by
  unfold setUser
  by_cases h : data.any (fun kv => kv.1 == u) = true
  · rw [if_pos h]
    exact lookupUser_map_set u r data h
  · rw [if_neg h]
    exact lookupUser_append_new u r data (Bool.not_eq_true _ ▸ Bool.of_not_eq_true h)

/-- In a well-formed store every user reads back a non-negative count. -/
theorem wf_lookup_nonneg (data : List (String × RateRecord)) (user : String)
    (hwf : ∀ kv ∈ data, 0 ≤ kv.2.usage_count) :
    0 ≤ ((lookupUser data user).getD {}).usage_count := by
  unfold lookupUser
  cases hf : data.find? (fun kv => kv.1 == user) with
  | none => simp [RateRecord.usage_count]
  | some kv =>
    have := hwf kv (List.mem_of_find?_eq_some hf)
    simpa using this

/-- After recording a same-day search for a user whose stored count was
non-negative, the user fails a daily limit of `1`. -/
theorem check_after_update (today now user : String)
    (data : List (String × RateRecord))
    (hnn : 0 ≤ ((lookupUser data user).getD {}).usage_count) :
    check_rate_limit 1 today user
      (update_rate_limit today now user (FileState.ok data) true) = false := by
  have hred : update_rate_limit today now user (FileState.ok data) true =
      FileState.ok (setUser data user (updatedRecord today now
        ((lookupUser data user).getD {}))) := rfl
  rw [hred]
  have hlk := lookupUser_setUser_self data user
    (updatedRecord today now ((lookupUser data user).getD {}))
  simp only [check_rate_limit, hlk, Option.getD_some]
  unfold updatedRecord
  by_cases hd : ((lookupUser data user).getD {}).last_search_date ≠ today
  · rw [if_pos hd]
    simp
  · rw [if_neg hd]
    push_neg at hd
    have hlt : ¬ (((lookupUser data user).getD {}).usage_count + 1 < 1) := by omega
    simp [hd, hlt]

/-- A blocked rate-limit check makes `search` return empty immediately,
without touching the store and without an upstream call. -/
theorem scholar_search_blocked (cfg : ScholarConfig) (today now : String)
    (up : Except Unit (List Paper)) (q : String) (mr : Int) (gs : FileState)
    (w : Bool) (user_id : String)
    (hgs : check_rate_limit cfg.daily_limit_per_user today user_id gs = false) :
    scholar_search cfg today now up q mr gs w user_id =
      { papers := [], file := gs, upstream_called := false } := by
  unfold scholar_search
  rw [hgs]
  rfl

/-- Claim C7: with the SERP API configured and available, a per-user daily
limit of `1`, a readable well-formed store and a successful store write, a
second same-day `search` for the same user returns an empty list, leaves the
store unchanged (no further usage recorded) and makes no upstream request. -/
theorem claim_c7_daily_limit (cfg : ScholarConfig) (today now1 now2 q1 q2 : String)
    (mr1 mr2 : Int) (up1 up2 : Except Unit (List Paper)) (user_id : String)
    (fs : FileState) (w2 : Bool)
    (hapi : cfg.api_key_present = true) (hserp : cfg.serpapi_available = true)
    (hlim : cfg.daily_limit_per_user = 1) (hwf : FileStateWF fs) :
    (scholar_search cfg today now2 up2 q2 mr2
        (scholar_search cfg today now1 up1 q1 mr1 fs true user_id).file w2 user_id).papers = [] ∧
      (scholar_search cfg today now2 up2 q2 mr2
          (scholar_search cfg today now1 up1 q1 mr1 fs true user_id).file w2 user_id).file =
        (scholar_search cfg today now1 up1 q1 mr1 fs true user_id).file ∧
      (scholar_search cfg today now2 up2 q2 mr2
          (scholar_search cfg today now1 up1 q1 mr1 fs true user_id).file w2 user_id).upstream_called = false := by
  have hchk2 : check_rate_limit cfg.daily_limit_per_user today user_id
      (scholar_search cfg today now1 up1 q1 mr1 fs true user_id).file = false := by
    by_cases hchk1 : check_rate_limit cfg.daily_limit_per_user today user_id fs = true
    · have hr1file : (scholar_search cfg today now1 up1 q1 mr1 fs true user_id).file =
          update_rate_limit today now1 user_id fs true := by
        unfold scholar_search
        rw [hchk1]
        cases up1 <;> simp [hapi, hserp]
      rw [hr1file, hlim]
      cases fs with
      | corrupt => exact hwf.elim
      | missing =>
        have hms : update_rate_limit today now1 user_id FileState.missing true =
            update_rate_limit today now1 user_id (FileState.ok []) true := rfl
        rw [hms]
        exact check_after_update today now1 user_id [] (by simp [lookupUser, RateRecord.usage_count])
      | ok data =>
        exact check_after_update today now1 user_id data (wf_lookup_nonneg data user_id hwf)
    · have hchk1f : check_rate_limit cfg.daily_limit_per_user today user_id fs = false :=
        Bool.of_not_eq_true hchk1
      rw [scholar_search_blocked cfg today now1 up1 q1 mr1 fs true user_id hchk1f]
      exact hchk1f
  rw [scholar_search_blocked cfg today now2 up2 q2 mr2 _ w2 user_id hchk2]
  exact ⟨rfl, rfl, rfl⟩

/-- Claim C7, witness: a fresh (missing) store, limit 1, API available — the
second same-day call by the same user is blocked. -/
theorem claim_c7_daily_limit_witness :
    (scholar_search ⟨true, true, 1⟩ "2026-10-12" "t2" (Except.ok [rrA2]) "q2" 5
        (scholar_search ⟨true, true, 1⟩ "2026-10-12" "t1" (Except.ok [rrA1]) "q1" 5
          FileState.missing true "alice").file true "alice").papers = [] ∧
      (scholar_search ⟨true, true, 1⟩ "2026-10-12" "t2" (Except.ok [rrA2]) "q2" 5
          (scholar_search ⟨true, true, 1⟩ "2026-10-12" "t1" (Except.ok [rrA1]) "q1" 5
            FileState.missing true "alice").file true "alice").file =
        (scholar_search ⟨true, true, 1⟩ "2026-10-12" "t1" (Except.ok [rrA1]) "q1" 5
          FileState.missing true "alice").file ∧
      (scholar_search ⟨true, true, 1⟩ "2026-10-12" "t2" (Except.ok [rrA2]) "q2" 5
          (scholar_search ⟨true, true, 1⟩ "2026-10-12" "t1" (Except.ok [rrA1]) "q1" 5
            FileState.missing true "alice").file true "alice").upstream_called = false :=
  claim_c7_daily_limit ⟨true, true, 1⟩ "2026-10-12" "t1" "t2" "q1" "q2" 5 5
    (Except.ok [rrA1]) (Except.ok [rrA2]) "alice" FileState.missing true
    rfl rfl rfl trivial

/-- Claim C8: the orchestrated pipeline consumes the `"default"` rate-limit
record for every user — after user `alice`'s search (fresh store), user
`bob`'s first-ever same-day search is blocked, because `process_search_task`
omits `user_id` when calling `search_all_sources`.  The store after
`alice`'s search holds only the `"default"` entry. -/
theorem claim_c8_rate_limit_not_isolated :
    (process_search_task_scholar ⟨true, true, 1⟩ "2026-10-12" "t1" (Except.ok [rrA1])
        "q" 10 "alice" FileState.missing true).file =
      FileState.ok [("default",
        { last_search_date := "2026-10-12", usage_count := 1, last_search_time := "t1" })] ∧
      (process_search_task_scholar ⟨true, true, 1⟩ "2026-10-12" "t1" (Except.ok [rrA1])
          "q" 10 "alice" FileState.missing true).papers = [rrA1] ∧
      (process_search_task_scholar ⟨true, true, 1⟩ "2026-10-12" "t2" (Except.ok [rrA1])
          "q" 10 "bob"
          (FileState.ok [("default",
            { last_search_date := "2026-10-12", usage_count := 1,
              last_search_time := "t1" })]) true).papers = [] ∧
      (process_search_task_scholar ⟨true, true, 1⟩ "2026-10-12" "t2" (Except.ok [rrA1])
          "q" 10 "bob"
          (FileState.ok [("default",
            { last_search_date := "2026-10-12", usage_count := 1,
              last_search_time := "t1" })]) true).upstream_called = false := by
  decide

/-- Claim C10: the rate limiter fails open — an unreadable or corrupt store
makes the check return `True`; the updater swallows read errors (corrupt
store stays corrupt) and write errors (store unchanged); and a search over a
corrupt store returns the same papers and makes the same upstream call as
over a fresh, empty store: corruption only disables the limit, it never
blocks a search. -/
theorem claim_c10_limiter_fails_open :
    (∀ (limit : Int) (today user : String),
        check_rate_limit limit today user FileState.corrupt = true) ∧
      (∀ (today now user : String) (w : Bool),
        update_rate_limit today now user FileState.corrupt w = FileState.corrupt) ∧
      (∀ (today now user : String) (fs : FileState),
        update_rate_limit today now user fs false = fs) ∧
      (∀ (cfg : ScholarConfig) (today now q : String) (mr : Int)
          (up : Except Unit (List Paper)) (w : Bool) (uid : String),
        (scholar_search cfg today now up q mr FileState.corrupt w uid).papers =
          (scholar_search cfg today now up q mr FileState.missing w uid).papers ∧
        (scholar_search cfg today now up q mr FileState.corrupt w uid).upstream_called =
          (scholar_search cfg today now up q mr FileState.missing w uid).upstream_called) := by
  refine ⟨fun _ _ _ => rfl, fun _ _ _ _ => rfl, ?_, ?_⟩
  · intro today now user fs
    cases fs <;> rfl
  · intro cfg today now q mr up w uid
    unfold scholar_search
    have hc : check_rate_limit cfg.daily_limit_per_user today uid FileState.corrupt = true := rfl
    have hm : check_rate_limit cfg.daily_limit_per_user today uid FileState.missing = true := rfl
    rw [hc, hm]
    by_cases hmock : (!cfg.api_key_present || !cfg.serpapi_available) = true
    · simp [hmock]
    · rw [Bool.not_eq_true] at hmock
      cases up <;> simp [hmock]

/-- Claim C9: in every execution of `process_search_task` — any aggregator
result, any `generate_analysis` flag, any combination of raising steps — the
sequence of status writes is monotonic: once COMPLETED or FAILED is written,
no later write occurs (in particular a session never moves from COMPLETED to
FAILED).  Indeed every trace is `[FAILED]`, `[PROCESSING, COMPLETED]` or
`[PROCESSING, FAILED]`. -/
theorem claim_c9_status_monotonic (papers : List Paper) (generate_analysis : Bool)
    (f : TaskFailures) :
    monotonicStatuses (process_search_task_statuses papers generate_analysis f) ∧
      (process_search_task_statuses papers generate_analysis f = [.failed] ∨
        process_search_task_statuses papers generate_analysis f =
          [.processing, .completed] ∨
        process_search_task_statuses papers generate_analysis f =
          [.processing, .failed]) := by
  unfold process_search_task_statuses
  split_ifs <;> exact ⟨by decide, by decide⟩

end ResearchBuddy

